import Mathlib

/-!
Verification of the inference-streaming client core of the mine.ai repository.

This file gives a shallow embedding, in Lean 4, of the parts of the source that
the specification's claims are about:

* `src/src/lib/tokenizer.ts` — token estimation and context-window truncation
  (`estimateTokens`, `estimateMessagesTokens`, `truncateToFit`);
* `src/unnamed/part_007` (`network.ts`) — `NetworkError`, its `toUserMessage`
  table, and the error classification performed by `resilientFetch`;
* `src/unnamed/part_008` (`api.ts`) — `buildChatCompletionUrl` and the offline
  pre-check of `streamAIResponse`;
* `src/unnamed/part_006` (the chat page) — the `separateThinkTags` helper and
  the accumulate-then-reparse pipeline of `onChunk`;
* `src/src/lib/lifecycle.ts` — the app-state transition sources and their
  callback-firing discipline.

JavaScript strings are modelled as `String`/`List Char`; JavaScript numbers
that only ever hold integers are modelled as `Nat`/`Int` (the one fractional
computation, `Math.ceil(length / 3.5)`, is justified where it is embedded).
Effectful code is modelled by explicit state passing: environment-dependent
facts (device connectivity, the outcome produced by `fetch`, the abort state of
the caller's signal) become explicit parameters.
-/

namespace MineAI

/- ════════════════════════════════════════════════════════════════
   Context Window Manager — src/src/lib/tokenizer.ts
   ════════════════════════════════════════════════════════════════ -/

/-- The `role` field of `ChatMessage` (tokenizer.ts line 15). -/
inductive ChatRole where
  | system
  | user
  | assistant
deriving DecidableEq, Repr

/-- Embeds `interface ChatMessage` (tokenizer.ts lines 14-17). -/
structure ChatMessage where
  role : ChatRole
  content : String
deriving DecidableEq, Repr

/-- Embeds `estimateTokens` (tokenizer.ts lines 31-34).  The source computes
`if (!text) return 0; return Math.ceil(text.length / 3.5) + 4`.  Since
`3.5 = 7/2`, the mathematical value of `Math.ceil(n / 3.5)` is `⌈2n/7⌉`, which
for naturals is `(2*n + 6) / 7`; the IEEE double division `n / 3.5` is
correctly rounded and `2n/7` is never within one ulp of a different integer
for any realistic string length, so the float ceiling agrees with the exact
one.  The lemma `estimateTokens_eq_ceil_formula` below relates this definition
to the exact rational ceiling. -/
def estimateTokens (text : String) : Nat :=
  if text.isEmpty then 0 else (2 * text.length + 6) / 7 + 4

/-- Embeds `estimateMessagesTokens` (tokenizer.ts lines 36-38): a reduce with
initial accumulator 0. -/
def estimateMessagesTokens (messages : List ChatMessage) : Nat :=
  messages.foldl (fun sum msg => sum + estimateTokens msg.content) 0

/-- Embeds `interface TruncationResult` (tokenizer.ts lines 42-48). -/
structure TruncationResult where
  messages : List ChatMessage
  truncated : Bool
  originalCount : Nat
  finalCount : Nat
  estimatedTokens : Nat
deriving DecidableEq, Repr

/-- Embeds the newest-to-oldest fill loop of `truncateToFit` (tokenizer.ts
lines 109-115).  The input list is the middle history in newest-first order
(the source iterates `i` from `history.length - 2` down to `0`); each selected
message is prepended by the source's `unshift`, which this definition renders
by appending after the recursive call, so the returned list is in original
chronological order, exactly as in the source.  The loop `break`s at the first
message that does not fit. -/
def greedyFill (budgetRemaining : Int) : List ChatMessage → List ChatMessage
  | [] => []
  | msg :: older =>
    let tokens := estimateTokens msg.content
    if (tokens : Int) > budgetRemaining then []
    else greedyFill (budgetRemaining - tokens) older ++ [msg]

/-- Embeds `truncateToFit` (tokenizer.ts lines 63-127).  `Math.floor
(contextLength * (1 - 0.25))` is `(3 * contextLength) / 4` for a natural
`contextLength` (0.75 is exactly representable and the product of a 53-bit
integer with 3/4 is correctly floored).  `budgetRemaining` may go negative in
the source, hence `Int`. -/
def truncateToFit (systemPrompt : String) (history : List ChatMessage)
    (contextLength : Nat) : TruncationResult :=
  match history with
  | [] =>
    { messages := [{ role := ChatRole.system, content := systemPrompt }]
      truncated := false
      originalCount := 0
      finalCount := 0
      estimatedTokens := estimateTokens systemPrompt }
  | first :: rest =>
    let originalCount := (first :: rest).length
    let maxInputTokens : Int := ((3 * contextLength) / 4 : Nat)
    let systemMessage : ChatMessage := { role := ChatRole.system, content := systemPrompt }
    let systemTokens := estimateTokens systemPrompt
    let lastMessage := (first :: rest).getLast (List.cons_ne_nil first rest)
    let lastMessageTokens := estimateTokens lastMessage.content
    let budgetRemaining : Int :=
      maxInputTokens - (systemTokens : Int) - (lastMessageTokens : Int)
    if budgetRemaining ≤ 0 then
      { messages := [systemMessage, lastMessage]
        truncated := decide (1 < originalCount)
        originalCount := originalCount
        finalCount := 1
        estimatedTokens := systemTokens + lastMessageTokens }
    else
      let middleMessages := greedyFill budgetRemaining ((first :: rest).dropLast.reverse)
      let finalMessages := systemMessage :: middleMessages ++ [lastMessage]
      { messages := finalMessages
        truncated := decide (middleMessages.length < originalCount - 1)
        originalCount := originalCount
        finalCount := middleMessages.length + 1
        estimatedTokens := estimateMessagesTokens finalMessages }

/-- Claim C8's stated formula, written from the spec's words: character length
divided by the fixed ratio 3.5, rounded up, plus the fixed per-message
overhead 4 — for every input. -/
def specEstimateTokens (text : String) : Nat :=
  (⌈(text.length : ℚ) / (3.5 : ℚ)⌉).toNat + 4

/- ════════════════════════════════════════════════════════════════
   Resilient Transport — src/unnamed/part_007 (network.ts)
   ════════════════════════════════════════════════════════════════ -/

/-- Embeds `type NetworkErrorKind` (network.ts lines 12-18): a closed
enumeration of failure classes. -/
inductive NetworkErrorKind where
  | offline
  | timeout
  | unreachable
  | http_error
  | stream_abort
  | unknown
deriving DecidableEq, Repr

/-- Embeds the `??` fallback in the `http_error` message template of
`NetworkError.toUserMessage` (network.ts line 45): `statusCode ?? "?"`
rendered as a string. -/
def statusCodeText : Option Nat → String
  | some code => Nat.repr code
  | none => "?"

/-- Embeds the static `NetworkError.toUserMessage` (network.ts lines 34-51):
the fixed user-facing message for each kind, status-code-aware only for
`http_error`, where 404 gets a dedicated message and every other status the
generic template. -/
def NetworkError.toUserMessage (kind : NetworkErrorKind)
    (statusCode : Option Nat) : String :=
  match kind with
  | NetworkErrorKind.offline =>
    "You\x27re offline. Check your Wi-Fi or cellular connection."
  | NetworkErrorKind.timeout =>
    "Connection timed out. Is your AI server running?"
  | NetworkErrorKind.unreachable =>
    "Can\x27t reach the server. Check the API URL and ensure Local Network access is allowed."
  | NetworkErrorKind.http_error =>
    if statusCode = some 404 then "Model endpoint not found. Check your API URL."
    else "Server error (HTTP " ++ statusCodeText statusCode ++ "). Try again."
  | NetworkErrorKind.stream_abort => "Response was interrupted."
  | NetworkErrorKind.unknown => "An unexpected network error occurred."

/-- Embeds `class NetworkError` (network.ts lines 20-32): kind, raw message,
optional status code, and the `userMessage` that the constructor computes. -/
structure NetworkError where
  kind : NetworkErrorKind
  message : String
  statusCode : Option Nat
  userMessage : String
deriving DecidableEq, Repr

/-- Embeds the `NetworkError` constructor (network.ts lines 25-31), which sets
`userMessage := NetworkError.toUserMessage(kind, statusCode)`. -/
def NetworkError.make (kind : NetworkErrorKind) (message : String)
    (statusCode : Option Nat) : NetworkError :=
  { kind := kind
    message := message
    statusCode := statusCode
    userMessage := NetworkError.toUserMessage kind statusCode }

/-- The outcome of the underlying `fetch` call as observed by
`resilientFetch`'s try/catch: a settled response carrying its status and
status text, an abort exception (`DOMException`/`AbortError`), a `TypeError`
(transport-layer failure: DNS, connection refused, TLS, CORS), or any other
thrown error. -/
inductive FetchOutcome where
  | response (status : Nat) (statusText : String)
  | abortError
  | typeError (message : String)
  | otherError (message : String)
deriving DecidableEq, Repr

/-- Embeds the control flow of `resilientFetch` (network.ts lines 97-172).
Environment-dependent observations are explicit parameters: `offlineAtStart`
is `isDeviceOffline()` at the pre-flight check (line 102), `callerAborted` is
`callerSignal?.aborted` in the catch handler (line 150; `false` when no caller
signal was supplied), `offlineAtCatch` is `isDeviceOffline()` inside the
`TypeError` branch (line 158), `effectiveTimeout` is the computed timeout
used in the timeout message (line 153), `hostname` is `new URL(url).hostname`
(line 163), and `outcome` is how the `fetch` settled.  The `setTimeout` /
`clearTimeout` bookkeeping and the abort-signal composition (lines 114-124,
180-199) have no effect on the returned value or classification and are not
part of the state here.  A successful (2xx) response is returned as its
status/status-text pair; `response.ok` is status 200-299. -/
def resilientFetch (offlineAtStart : Bool) (callerAborted : Bool)
    (offlineAtCatch : Bool) (effectiveTimeout : Nat) (hostname : String)
    (outcome : FetchOutcome) : Except NetworkError (Nat × String) :=
  if offlineAtStart then
    Except.error (NetworkError.make NetworkErrorKind.offline "Device is offline" none)
  else
    match outcome with
    | FetchOutcome.response status statusText =>
      if 200 ≤ status ∧ status ≤ 299 then Except.ok (status, statusText)
      else
        Except.error (NetworkError.make NetworkErrorKind.http_error
          ("HTTP " ++ Nat.repr status ++ ": " ++ statusText) (some status))
    | FetchOutcome.abortError =>
      if callerAborted then
        Except.error (NetworkError.make NetworkErrorKind.stream_abort
          "Request aborted by user" none)
      else
        Except.error (NetworkError.make NetworkErrorKind.timeout
          ("Request timed out after " ++ Nat.repr effectiveTimeout ++ "ms") none)
    | FetchOutcome.typeError message =>
      if offlineAtCatch then
        Except.error (NetworkError.make NetworkErrorKind.offline
          "Device went offline during request" none)
      else
        Except.error (NetworkError.make NetworkErrorKind.unreachable
          ("Cannot reach " ++ hostname ++ ": " ++ message) none)
    | FetchOutcome.otherError message =>
      Except.error (NetworkError.make NetworkErrorKind.unknown message none)

/-- Claim C2's classification table, written from the claim's words: a
response with non-2xx status yields `http_error`; an abort where the caller's
signal is aborted yields `stream_abort`, otherwise `timeout`; a `TypeError`
while the device is offline yields `offline`, otherwise `unreachable`; any
other failure yields `unknown`; a 2xx response yields no error. -/
def specTerminalKind (callerAborted : Bool) (deviceOffline : Bool) :
    FetchOutcome → Option NetworkErrorKind
  | FetchOutcome.response status _ =>
    if 200 ≤ status ∧ status ≤ 299 then none else some NetworkErrorKind.http_error
  | FetchOutcome.abortError =>
    some (if callerAborted then NetworkErrorKind.stream_abort
      else NetworkErrorKind.timeout)
  | FetchOutcome.typeError _ =>
    some (if deviceOffline then NetworkErrorKind.offline
      else NetworkErrorKind.unreachable)
  | FetchOutcome.otherError _ => some NetworkErrorKind.unknown

/-- Embeds the offline pre-check and error propagation of `streamAIResponse`
(api.ts lines 91-95 and 214-221): before any network operation,
`isDeviceOffline()` is consulted and a `NetworkError` of kind `offline` is
thrown without touching the transport; otherwise the request is delegated to
`resilientFetch`.  The body-decoding loop, which no claim in scope concerns,
is elided: a successful fetch is reported as `Except.ok ()`, and every
`NetworkError` surfaces unchanged (the source forwards it to `onError`). -/
def streamAIResponse (deviceOffline : Bool) (offlineAtStart : Bool)
    (callerAborted : Bool) (offlineAtCatch : Bool) (effectiveTimeout : Nat)
    (hostname : String) (outcome : FetchOutcome) : Except NetworkError Unit :=
  if deviceOffline then
    Except.error (NetworkError.make NetworkErrorKind.offline "Device is offline" none)
  else
    (resilientFetch offlineAtStart callerAborted offlineAtCatch effectiveTimeout
      hostname outcome).map (fun _ => ())

/- ════════════════════════════════════════════════════════════════
   Endpoint Resolver — src/unnamed/part_008 (api.ts)
   ════════════════════════════════════════════════════════════════ -/

/-- Embeds the trailing-slash strip `apiUrl.replace(/\/+$/, '')` (api.ts line
30): remove every trailing `/`. -/
def stripTrailingSlashes (s : List Char) : List Char :=
  (s.reverse.dropWhile (fun c => c == '/')).reverse

/-- The literal `/chat/completions`, the suffix tested case-insensitively by
`/\/chat\/completions$/i` (api.ts line 33). -/
def chatCompletionsSuffix : List Char := "/chat/completions".data

/-- The literal `/api/chat` tested by `endsWith` (api.ts line 38). -/
def apiChatSuffix : List Char := "/api/chat".data

/-- The literal `/v1/chat/completions` appended on api.ts line 43. -/
def v1ChatCompletions : List Char := "/v1/chat/completions".data

/-- Embeds `buildChatCompletionUrl` (api.ts lines 29-44) on character lists:
strip trailing slashes; if the result already ends, case-insensitively, with
`/chat/completions`, or ends with `/api/chat`, return it unchanged; otherwise
append `/v1/chat/completions`.  The `/i` flag is modelled by lowercasing both
sides; the pattern is ASCII and the flag's canonicalization without the `u`
flag is ASCII-only, as is `Char.toLower`. -/
def buildChatCompletionUrlChars (apiUrl : List Char) : List Char :=
  let cleanUrl := stripTrailingSlashes apiUrl
  if chatCompletionsSuffix.isSuffixOf (cleanUrl.map Char.toLower) then cleanUrl
  else if apiChatSuffix.isSuffixOf cleanUrl then cleanUrl
  else cleanUrl ++ v1ChatCompletions

/-- `buildChatCompletionUrl` on strings, via its character-list body. -/
def buildChatCompletionUrl (apiUrl : String) : String :=
  String.mk (buildChatCompletionUrlChars apiUrl.data)

/- ════════════════════════════════════════════════════════════════
   Lifecycle-Aware Cancellation — src/src/lib/lifecycle.ts
   ════════════════════════════════════════════════════════════════ -/

/-- The transition sources wired by lifecycle.ts: the Capacitor
`appStateChange` event (line 60), the browser `visibilitychange` event (line
78, with `visible = (document.visibilityState === "visible")`), and the page
`freeze`/`resume` events (lines 96 and 102). -/
inductive LifecycleSignal where
  | appStateChange (isActive : Bool)
  | visibilityChange (visible : Bool)
  | freeze
  | resume
deriving DecidableEq, Repr

/-- One handler step over the module-level `lastState` (lifecycle.ts lines
56-109).  Returns the new `lastState` together with `some b` when the
registered callbacks are invoked with `b` and `none` when they are not: the
`appStateChange` handler (lines 60-74) and the `visibilitychange` handler
(lines 78-92) fire callbacks only when `wasActive !== isActive`; the `freeze`
(lines 96-101) and `resume` (lines 102-107) handlers set the state and fire
the callbacks unconditionally. -/
def lifecycleStep (lastState : Bool) : LifecycleSignal → Bool × Option Bool
  | LifecycleSignal.appStateChange isActive =>
    (isActive, if lastState = isActive then none else some isActive)
  | LifecycleSignal.visibilityChange visible =>
    (visible, if lastState = visible then none else some visible)
  | LifecycleSignal.freeze => (false, some false)
  | LifecycleSignal.resume => (true, some true)

/-- Runs a sequence of source signals from a given `lastState` (the module
initializes it to `true`, line 21) and records, for each callback invocation,
the pair of the previously recorded state and the boolean passed to the
callbacks. -/
def lifecycleTrace (lastState : Bool) : List LifecycleSignal → List (Bool × Bool)
  | [] => []
  | sig :: rest =>
    match lifecycleStep lastState sig with
    | (next, some b) => (lastState, b) :: lifecycleTrace next rest
    | (next, none) => lifecycleTrace next rest

/-- The de-duplicating transition sources: Capacitor app-state events and
page-visibility events; the `freeze`/`resume` handlers are not among them. -/
def isDedupSource : LifecycleSignal → Bool
  | LifecycleSignal.appStateChange _ => true
  | LifecycleSignal.visibilityChange _ => true
  | LifecycleSignal.freeze => false
  | LifecycleSignal.resume => false

/- ════════════════════════════════════════════════════════════════
   Stream Decoder think-tag separation — src/unnamed/part_006
   ════════════════════════════════════════════════════════════════ -/

/-- The opening reasoning marker `<think>`. -/
def openTag : List Char := "<think>".data

/-- The closing reasoning marker `</think>`. -/
def closeTag : List Char := "</think>".data

/-- Splits a list at the first occurrence of `pat`: returns
`some (pre, post)` where the input equals `pre ++ pat ++ post` and `pre` is
free of `pat` (`splitFirst_some_spec`), or `none` when `pat` does not occur
(`not_infix_of_splitFirst_none`).  This renders both the leftmost-match scan
of `String.prototype.replace` and `String.prototype.indexOf`. -/
def splitFirst (pat : List Char) : List Char → Option (List Char × List Char)
  | [] => if pat = [] then some ([], []) else none
  | c :: rest =>
    if pat.isPrefixOf (c :: rest) then some ([], (c :: rest).drop pat.length)
    else
      match splitFirst pat rest with
      | some (pre, post) => some (c :: pre, post)
      | none => none

/-- The global callback-replace
`content.replace(/<think>([\s\S]*?)<\/think>/g, …)` of `separateThinkTags`
(part_006 lines 246-249): repeatedly find the leftmost `<think>` and the
first `</think>` after it; drop the matched span from the content, append the
lazy-captured interior to the extracted thinking, and continue after the
match (the regex resumes from `lastIndex`).  When an `<think>` has no
`</think>` anywhere after it, no further match exists (any later opening is
even further right) and the remainder is left unchanged, exactly as the
regex behaves.  `fuel` bounds the recursion: each extracted block consumes at
least 15 characters, so `fuel = length of the input` always suffices
(`replaceThinkBlocksAux_fuel`). -/
def replaceThinkBlocksAux : Nat → List Char → List Char × List Char
  | 0, s => (s, [])
  | fuel + 1, s =>
    match splitFirst openTag s with
    | none => (s, [])
    | some (pre, rest) =>
      match splitFirst closeTag rest with
      | none => (s, [])
      | some (interior, tail) =>
        let r := replaceThinkBlocksAux fuel tail
        (pre ++ r.1, interior ++ r.2)

/-- The block-extraction pass at its always-sufficient fuel. -/
def replaceThinkBlocks (s : List Char) : List Char × List Char :=
  replaceThinkBlocksAux s.length s

/-- `String.prototype.trim`: drop whitespace from both ends. -/
def trimChars (l : List Char) : List Char :=
  ((l.dropWhile Char.isWhitespace).reverse.dropWhile Char.isWhitespace).reverse

/-- Embeds `separateThinkTags` (part_006 lines 242-257): extract completed
`<think>…</think>` blocks via the global replace; then handle an unclosed
`<think>` in the residual content (`indexOf`, line 251) by moving everything
after the marker into thinking (`content.slice(openIdx + 7)`) and keeping
only what precedes it (`content.slice(0, openIdx)`); finally trim both
results. -/
def separateThinkTags (raw : List Char) : List Char × List Char :=
  let r := replaceThinkBlocks raw
  match splitFirst openTag r.1 with
  | some (pre, rest) => (trimChars pre, trimChars (r.2 ++ rest))
  | none => (trimChars r.1, trimChars r.2)

/-- The stream-consumer state of the chat page (part_006 line 238):
`accumulatedRawContent`. -/
structure StreamState where
  accumulatedRawContent : List Char
deriving DecidableEq, Repr

/-- One `onChunk` step (part_006 lines 274-276): append the chunk to the
accumulated raw content and re-parse the whole accumulation; the parsed pair
is what `updateMessage` persists. -/
def onChunkStep (st : StreamState) (chunk : List Char) :
    StreamState × (List Char × List Char) :=
  let acc := st.accumulatedRawContent ++ chunk
  (⟨acc⟩, separateThinkTags acc)

/-- Feeds a chunk sequence through `onChunk`, returning the final state. -/
def runChunks : StreamState → List (List Char) → StreamState
  | st, [] => st
  | st, chunk :: rest => runChunks (onChunkStep st chunk).1 rest

/-- The final `{content, thinking}` pair after feeding the chunk sequence
from the initial empty accumulation. -/
def finalParse (chunks : List (List Char)) : List Char × List Char :=
  separateThinkTags (runChunks ⟨[]⟩ chunks).accumulatedRawContent

/-- Claim C3's notion of a raw string containing a reasoning-marker span: an
`<think>` with a matching `</think>` after it. -/
def hasThinkSpan (s : List Char) : Bool :=
  match splitFirst openTag s with
  | none => false
  | some (_, rest) => (splitFirst closeTag rest).isSome

/- ════════════════════════════════════════════════════════════════
   Theorems
   ════════════════════════════════════════════════════════════════ -/

/-- The exact rational ceiling of `n / 3.5` is the ceiling division
`(2*n + 6) / 7` on naturals. -/
theorem ceil_ratio_toNat (n : ℕ) :
    (⌈(n : ℚ) / (3.5 : ℚ)⌉).toNat = (2 * n + 6) / 7 := by
  have h35 : ((n : ℚ)) / (3.5 : ℚ) = ((2 * n : ℚ)) / 7 := by
    rw [div_eq_div_iff (by norm_num) (by norm_num)]
    ring
  set k : ℕ := (2 * n + 6) / 7 with hk
  have hdm := Nat.div_add_mod (2 * n + 6) 7
  have hmod : (2 * n + 6) % 7 < 7 := Nat.mod_lt _ (by norm_num)
  have hceil : ⌈(n : ℚ) / (3.5 : ℚ)⌉ = (k : ℤ) := by
    rw [h35, Int.ceil_eq_iff]
    constructor
    · rw [lt_div_iff₀ (by norm_num : (0:ℚ) < 7)]
      have hZ : 7 * k < 2 * n + 7 := by omega
      have hQ : ((7 * k : ℕ) : ℚ) < ((2 * n + 7 : ℕ) : ℚ) := by
        exact_mod_cast hZ
      push_cast at hQ ⊢
      linarith
    · rw [div_le_iff₀ (by norm_num : (0:ℚ) < 7)]
      have hZ : 2 * n ≤ 7 * k := by omega
      have hQ : ((2 * n : ℕ) : ℚ) ≤ ((7 * k : ℕ) : ℚ) := by
        exact_mod_cast hZ
      push_cast at hQ ⊢
      linarith
  rw [hceil, Int.toNat_natCast]

/-- On a nonempty string the embedded `estimateTokens` agrees with the exact
ceiling formula. -/
theorem estimateTokens_eq_ceil_formula (text : String) (h : text.isEmpty = false) :
    estimateTokens text = specEstimateTokens text := by
  unfold estimateTokens specEstimateTokens
  rw [h, ← ceil_ratio_toNat]
  simp

/-- C8 (counterexample): the claim asserts `estimateTokens(text) =
ceil(length(text) / 3.5) + 4` for all inputs, *including the empty string*.
The source's guard `if (!text) return 0` makes the empty string return `0`,
while the formula gives `4`. -/
theorem estimateTokens_empty_counterexample :
    estimateTokens "" = 0 ∧ specEstimateTokens "" = 4 ∧
    decide (estimateTokens "" = specEstimateTokens "") = false := by
  have h0 : estimateTokens "" = 0 := rfl
  have h4 : specEstimateTokens "" = 4 := by
    unfold specEstimateTokens
    rw [show ("".length) = 0 from rfl]
    norm_num
  refine ⟨h0, h4, ?_⟩
  rw [h0, h4]
  decide

/-- C8 (amended): for every *nonempty* text, `estimateTokens(text)` equals the
character length divided by the fixed ratio 3.5 rounded up, plus the fixed
per-message overhead of 4; the empty string instead returns 0. -/
theorem estimateTokens_formula (text : String) (h : text.isEmpty = false) :
    estimateTokens text = specEstimateTokens text :=
  estimateTokens_eq_ceil_formula text h

/-- Witness for `estimateTokens_formula` at the concrete text `"abc"`. -/
theorem estimateTokens_formula_witness :
    "abc".isEmpty = false ∧ estimateTokens "abc" = specEstimateTokens "abc" :=
  ⟨rfl, estimateTokens_formula "abc" rfl⟩

/-- C10: on the empty history `truncateToFit` returns exactly the single
system-prompt message, not truncated, with both counts 0 and estimated tokens
equal to the system prompt's estimate — for every system prompt and every
context length. -/
theorem truncateToFit_empty_history (systemPrompt : String) (contextLength : Nat) :
    truncateToFit systemPrompt [] contextLength =
      { messages := [{ role := ChatRole.system, content := systemPrompt }]
        truncated := false
        originalCount := 0
        finalCount := 0
        estimatedTokens := estimateTokens systemPrompt } := rfl

/-- The fill loop never selects more messages than it is offered. -/
theorem greedyFill_length_le (budgetRemaining : Int) (l : List ChatMessage) :
    (greedyFill budgetRemaining l).length ≤ l.length := by
  induction l generalizing budgetRemaining with
  | nil => simp [greedyFill]
  | cons msg older ih =>
    simp only [greedyFill]
    split
    · simp
    · simp only [List.length_append, List.length_cons, List.length_nil]
      have := ih (budgetRemaining - (estimateTokens msg.content : Int))
      omega

/-- C5: in every branch of `truncateToFit` (empty history, budget exhausted by
system prompt plus last message, and the greedy newest-to-oldest fill), the
result satisfies `finalCount ≤ originalCount`, and `truncated = true` exactly
when `finalCount < originalCount`. -/
theorem truncateToFit_counts (systemPrompt : String) (history : List ChatMessage)
    (contextLength : Nat) :
    (truncateToFit systemPrompt history contextLength).finalCount ≤
      (truncateToFit systemPrompt history contextLength).originalCount ∧
    ((truncateToFit systemPrompt history contextLength).truncated = true ↔
      (truncateToFit systemPrompt history contextLength).finalCount <
        (truncateToFit systemPrompt history contextLength).originalCount) := by
  cases history with
  | nil => simp [truncateToFit]
  | cons first rest =>
    simp only [truncateToFit]
    split
    · dsimp only
      simp only [List.length_cons, decide_eq_true_eq]
      exact ⟨by omega, trivial⟩
    · dsimp only
      refine ⟨Nat.succ_le_succ ((greedyFill_length_le _ _).trans (by simp)), ?_⟩
      simp only [List.length_cons, decide_eq_true_eq]
      omega

/-- C4: for every nonempty history and every context length, the `messages`
returned by `truncateToFit` start with the system-prompt message and end with
the most recent history message — both are always included, whether or not the
budget is exhausted. -/
theorem truncateToFit_anchors (systemPrompt : String) (history : List ChatMessage)
    (contextLength : Nat) (h : history ≠ []) :
    (truncateToFit systemPrompt history contextLength).messages.head? =
      some { role := ChatRole.system, content := systemPrompt } ∧
    (truncateToFit systemPrompt history contextLength).messages.getLast? =
      some (history.getLast h) := by
  cases history with
  | nil => exact absurd rfl h
  | cons first rest =>
    simp only [truncateToFit]
    split
    · exact ⟨rfl, rfl⟩
    · refine ⟨rfl, ?_⟩
      dsimp only
      rw [List.getLast?_concat]

/-- The generic server-error template never coincides with the dedicated
404 message, whatever text is interpolated: the first differs from the second
already at the first character. -/
theorem server_error_ne_not_found (s : String) :
    ("Server error (HTTP " ++ s ++ "). Try again.") ≠
      "Model endpoint not found. Check your API URL." := by
  intro h
  have hd := congrArg String.data h
  rw [String.data_append, String.data_append] at hd
  have hh := congrArg List.head? hd
  rw [List.head?_append] at hh
  have hSM : (some 'S' : Option Char) = some 'M' := hh
  exact absurd hSM (by decide)

/-- C2: every terminal error of `resilientFetch` is classified exactly as the
claim's table prescribes (non-2xx status → `http_error` with that status
code; abort with the caller's signal aborted → `stream_abort`; abort not
attributable to the caller → `timeout`; `TypeError` while online →
`unreachable`; `TypeError` while offline → `offline`; anything else →
`unknown`), its `userMessage` is the fixed function of kind and status code,
and for `http_error` the 404 message differs from that of every other
status. -/
theorem resilientFetch_classification :
    (∀ (callerAborted offlineAtCatch : Bool) (effectiveTimeout : Nat)
        (hostname : String) (outcome : FetchOutcome) (e : NetworkError),
      resilientFetch false callerAborted offlineAtCatch effectiveTimeout hostname
          outcome = Except.error e →
        some e.kind = specTerminalKind callerAborted offlineAtCatch outcome ∧
        e.userMessage = NetworkError.toUserMessage e.kind e.statusCode) ∧
    (∀ (callerAborted offlineAtCatch : Bool) (effectiveTimeout : Nat)
        (hostname statusText : String) (status : Nat),
      ¬ (200 ≤ status ∧ status ≤ 299) →
      resilientFetch false callerAborted offlineAtCatch effectiveTimeout hostname
          (FetchOutcome.response status statusText) =
        Except.error (NetworkError.make NetworkErrorKind.http_error
          ("HTTP " ++ Nat.repr status ++ ": " ++ statusText) (some status))) ∧
    (∀ status : Nat, status ≠ 404 →
      NetworkError.toUserMessage NetworkErrorKind.http_error (some status) ≠
        NetworkError.toUserMessage NetworkErrorKind.http_error (some 404)) := by
  refine ⟨?_, ?_, ?_⟩
  · intro callerAborted offlineAtCatch effectiveTimeout hostname outcome e he
    cases outcome with
    | response status statusText =>
      unfold resilientFetch at he
      rw [if_neg Bool.false_ne_true] at he
      dsimp only at he
      split at he
      · simp at he
      · rename_i hst
        injection he with he
        subst he
        exact ⟨by simp [specTerminalKind, NetworkError.make, hst], rfl⟩
    | abortError =>
      unfold resilientFetch at he
      rw [if_neg Bool.false_ne_true] at he
      dsimp only at he
      split at he
      · rename_i hb
        injection he with he
        subst he
        exact ⟨by simp [specTerminalKind, NetworkError.make, hb], rfl⟩
      · rename_i hb
        injection he with he
        subst he
        exact ⟨by simp [specTerminalKind, NetworkError.make, hb], rfl⟩
    | typeError message =>
      unfold resilientFetch at he
      rw [if_neg Bool.false_ne_true] at he
      dsimp only at he
      split at he
      · rename_i hoff
        injection he with he
        subst he
        exact ⟨by simp [specTerminalKind, NetworkError.make, hoff], rfl⟩
      · rename_i hoff
        injection he with he
        subst he
        exact ⟨by simp [specTerminalKind, NetworkError.make, hoff], rfl⟩
    | otherError message =>
      unfold resilientFetch at he
      rw [if_neg Bool.false_ne_true] at he
      dsimp only at he
      injection he with he
      subst he
      exact ⟨rfl, rfl⟩
  · intro callerAborted offlineAtCatch effectiveTimeout hostname statusText status h
    unfold resilientFetch
    rw [if_neg Bool.false_ne_true]
    dsimp only
    rw [if_neg h]
  · intro status h
    have h1 : NetworkError.toUserMessage NetworkErrorKind.http_error (some status) =
        "Server error (HTTP " ++ statusCodeText (some status) ++ "). Try again." := by
      unfold NetworkError.toUserMessage
      rw [if_neg (by simpa using h)]
    have h2 : NetworkError.toUserMessage NetworkErrorKind.http_error (some 404) =
        "Model endpoint not found. Check your API URL." := by
      unfold NetworkError.toUserMessage
      rw [if_pos rfl]
    rw [h1, h2]
    exact server_error_ne_not_found (statusCodeText (some status))

/-- Witness for `resilientFetch_classification` at the concrete terminal
outcome `HTTP 500` with the caller's signal aborted and the device online. -/
theorem resilientFetch_classification_witness :
    resilientFetch false true false 15000 "localhost"
        (FetchOutcome.response 500 "Internal Server Error") =
      Except.error (NetworkError.make NetworkErrorKind.http_error
        ("HTTP " ++ Nat.repr 500 ++ ": " ++ "Internal Server Error") (some 500)) :=
  resilientFetch_classification.2.1 true false 15000 "localhost"
    "Internal Server Error" 500 (by omega)

/-- C6: when the device-level connectivity check reports offline, both
`resilientFetch` and `streamAIResponse` fail immediately with a classified
error of kind `offline`, and the result is the same whatever fetch outcome,
caller-signal state, timeout or hostname would have been observed — no
network operation influences it. -/
theorem offline_precheck_fails_fast :
    (∀ (callerAborted offlineAtCatch : Bool) (effectiveTimeout : Nat)
        (hostname : String) (outcome : FetchOutcome),
      resilientFetch true callerAborted offlineAtCatch effectiveTimeout hostname
          outcome =
        Except.error (NetworkError.make NetworkErrorKind.offline
          "Device is offline" none)) ∧
    (∀ (offlineAtStart callerAborted offlineAtCatch : Bool)
        (effectiveTimeout : Nat) (hostname : String) (outcome : FetchOutcome),
      streamAIResponse true offlineAtStart callerAborted offlineAtCatch
          effectiveTimeout hostname outcome =
        Except.error (NetworkError.make NetworkErrorKind.offline
          "Device is offline" none)) :=
  ⟨fun _ _ _ _ _ => rfl, fun _ _ _ _ _ _ => rfl⟩

/-- Witness for `truncateToFit_anchors` at a concrete one-message history. -/
theorem truncateToFit_anchors_witness :
    (truncateToFit "sys" [{ role := ChatRole.user, content := "hi" }] 4096).messages.head? =
      some { role := ChatRole.system, content := "sys" } ∧
    (truncateToFit "sys" [{ role := ChatRole.user, content := "hi" }] 4096).messages.getLast? =
      some ([{ role := ChatRole.user, content := "hi" }].getLast (by simp)) :=
  truncateToFit_anchors "sys" [{ role := ChatRole.user, content := "hi" }] 4096 (by simp)

/-- Dropping a prefix of `p`-satisfying elements is idempotent. -/
theorem dropWhile_self {α : Type} (p : α → Bool) (l : List α) :
    (l.dropWhile p).dropWhile p = l.dropWhile p := by
  induction l with
  | nil => rfl
  | cons a t ih =>
    by_cases h : p a
    · rw [List.dropWhile_cons_of_pos h]
      exact ih
    · rw [List.dropWhile_cons_of_neg h, List.dropWhile_cons_of_neg h]

/-- Stripping trailing slashes twice equals stripping them once. -/
theorem stripTrailingSlashes_idem (l : List Char) :
    stripTrailingSlashes (stripTrailingSlashes l) = stripTrailingSlashes l := by
  unfold stripTrailingSlashes
  rw [List.reverse_reverse, dropWhile_self]

/-- A list whose last element is not a slash is unchanged by the strip. -/
theorem stripTrailingSlashes_eq_self (l : List Char) (c : Char)
    (hc : (c == '/') = false) (h : l.getLast? = some c) :
    stripTrailingSlashes l = l := by
  unfold stripTrailingSlashes
  cases hr : l.reverse with
  | nil =>
    rw [List.reverse_eq_nil_iff] at hr
    subst hr
    simp at h
  | cons d t =>
    have hd : d = c := by
      have hh := List.head?_reverse l
      rw [hr, h] at hh
      exact Option.some.inj hh
    subst hd
    have hneg : ¬ ((d == '/') = true) := by simp [hc]
    rw [@List.dropWhile_cons_of_neg _ (fun ch => ch == '/') d t hneg, ← hr,
      List.reverse_reverse]

/-- Idempotence of the resolver on character lists. -/
theorem buildChatCompletionUrlChars_idem (u : List Char) :
    buildChatCompletionUrlChars (buildChatCompletionUrlChars u) =
      buildChatCompletionUrlChars u := by
  by_cases h1 : chatCompletionsSuffix.isSuffixOf
      ((stripTrailingSlashes u).map Char.toLower) = true
  · have hfu : buildChatCompletionUrlChars u = stripTrailingSlashes u := by
      unfold buildChatCompletionUrlChars
      rw [if_pos h1]
    rw [hfu]
    unfold buildChatCompletionUrlChars
    rw [stripTrailingSlashes_idem, if_pos h1]
  · by_cases h2 : apiChatSuffix.isSuffixOf (stripTrailingSlashes u) = true
    · have hfu : buildChatCompletionUrlChars u = stripTrailingSlashes u := by
        unfold buildChatCompletionUrlChars
        rw [if_neg h1, if_pos h2]
      rw [hfu]
      unfold buildChatCompletionUrlChars
      rw [stripTrailingSlashes_idem, if_neg h1, if_pos h2]
    · have hfu : buildChatCompletionUrlChars u =
          stripTrailingSlashes u ++ v1ChatCompletions := by
        unfold buildChatCompletionUrlChars
        rw [if_neg h1, if_neg h2]
      rw [hfu]
      unfold buildChatCompletionUrlChars
      have hlast : (stripTrailingSlashes u ++ v1ChatCompletions).getLast? =
          some 's' := by
        rw [List.getLast?_append]
        rfl
      have hstrip2 : stripTrailingSlashes
          (stripTrailingSlashes u ++ v1ChatCompletions) =
          stripTrailingSlashes u ++ v1ChatCompletions :=
        stripTrailingSlashes_eq_self _ 's' (by decide) hlast
      rw [hstrip2]
      have hmap : (stripTrailingSlashes u ++ v1ChatCompletions).map Char.toLower =
          (stripTrailingSlashes u).map Char.toLower ++ v1ChatCompletions := by
        rw [List.map_append,
          show v1ChatCompletions.map Char.toLower = v1ChatCompletions from rfl]
      have hsuf : chatCompletionsSuffix.isSuffixOf
          ((stripTrailingSlashes u ++ v1ChatCompletions).map Char.toLower) = true := by
        rw [hmap, List.isSuffixOf_iff_suffix]
        obtain ⟨w, hw⟩ : chatCompletionsSuffix <:+ v1ChatCompletions :=
          ⟨"/v1".data, rfl⟩
        exact ⟨(stripTrailingSlashes u).map Char.toLower ++ w,
          by rw [List.append_assoc, hw]⟩
      rw [if_pos hsuf]

/-- C7: for every input URL string, resolving the chat-completion URL twice
equals resolving it once:
`buildChatCompletionUrl (buildChatCompletionUrl u) = buildChatCompletionUrl u`. -/
theorem buildChatCompletionUrl_idem (apiUrl : String) :
    buildChatCompletionUrl (buildChatCompletionUrl apiUrl) =
      buildChatCompletionUrl apiUrl := by
  unfold buildChatCompletionUrl
  rw [show (String.mk (buildChatCompletionUrlChars apiUrl.data)).data =
    buildChatCompletionUrlChars apiUrl.data from rfl]
  rw [buildChatCompletionUrlChars_idem]

/-- C9 (counterexample): two consecutive `freeze` events from the initial
active state.  The second invocation passes `false` to the callbacks although
the recorded last-known state is already `false`: a repeated identical signal
that still invokes every callback, contradicting the claim that callbacks
fire only on actual changes. -/
theorem lifecycle_freeze_counterexample :
    lifecycleTrace true [LifecycleSignal.freeze, LifecycleSignal.freeze] =
      [(true, false), (false, false)] ∧
    ((lifecycleTrace true [LifecycleSignal.freeze, LifecycleSignal.freeze]).any
      (fun p => p.1 == p.2)) = true :=
  ⟨rfl, rfl⟩

/-- C9 (amended): for `appStateChange` and `visibilitychange` signals,
callbacks are invoked only on actual transitions — over any signal sequence
drawn from those two sources, every invocation's boolean differs from the
previously recorded last-known state — while a `freeze` or `resume` signal
always invokes the callbacks (with `false` resp. `true`) regardless of the
recorded state. -/
theorem lifecycle_dedup_amended :
    (∀ (sigs : List LifecycleSignal) (lastState : Bool),
      sigs.all isDedupSource = true →
      ((lifecycleTrace lastState sigs).all fun p => decide (p.1 ≠ p.2)) = true) ∧
    (∀ lastState : Bool,
      (lifecycleStep lastState LifecycleSignal.freeze).2 = some false ∧
      (lifecycleStep lastState LifecycleSignal.resume).2 = some true) := by
  constructor
  · intro sigs
    induction sigs with
    | nil => intro lastState _; rfl
    | cons sig rest ih =>
      intro lastState h
      simp only [List.all_cons, Bool.and_eq_true] at h
      obtain ⟨h1, h2⟩ := h
      cases sig with
      | appStateChange b =>
        by_cases hb : lastState = b
        · simp only [lifecycleTrace, lifecycleStep, if_pos hb]
          exact ih b h2
        · simp only [lifecycleTrace, lifecycleStep, if_neg hb]
          rw [List.all_cons, Bool.and_eq_true]
          exact ⟨by simpa using hb, ih b h2⟩
      | visibilityChange b =>
        by_cases hb : lastState = b
        · simp only [lifecycleTrace, lifecycleStep, if_pos hb]
          exact ih b h2
        · simp only [lifecycleTrace, lifecycleStep, if_neg hb]
          rw [List.all_cons, Bool.and_eq_true]
          exact ⟨by simpa using hb, ih b h2⟩
      | freeze => simp [isDedupSource] at h1
      | resume => simp [isDedupSource] at h1
  · intro lastState
    exact ⟨rfl, rfl⟩

/-- Witness for `lifecycle_dedup_amended` on a concrete sequence of
de-duplicating source signals starting from the active state. -/
theorem lifecycle_dedup_amended_witness :
    ([LifecycleSignal.appStateChange false, LifecycleSignal.appStateChange false,
      LifecycleSignal.visibilityChange true].all isDedupSource) = true ∧
    ((lifecycleTrace true
        [LifecycleSignal.appStateChange false, LifecycleSignal.appStateChange false,
         LifecycleSignal.visibilityChange true]).all
      fun p => decide (p.1 ≠ p.2)) = true :=
  ⟨by decide,
    lifecycle_dedup_amended.1
      [LifecycleSignal.appStateChange false, LifecycleSignal.appStateChange false,
       LifecycleSignal.visibilityChange true] true (by decide)⟩

/-- When `splitFirst` finds no occurrence, the pattern is not an infix. -/
theorem not_infix_of_splitFirst_none {pat : List Char} (hp : pat ≠ []) :
    ∀ s : List Char, splitFirst pat s = none → ¬ pat <:+: s := by
  intro s
  induction s with
  | nil =>
    intro _ hinf
    rw [List.infix_nil] at hinf
    exact hp hinf
  | cons c rest ih =>
    intro h hinf
    unfold splitFirst at h
    split at h
    · exact Option.noConfusion h
    · rename_i hnp
      rcases hsp : splitFirst pat rest with _ | ⟨pre, post⟩
      · rw [List.infix_cons_iff] at hinf
        cases hinf with
        | inl hpre => exact hnp (by rw [List.isPrefixOf_iff_prefix]; exact hpre)
        | inr hrest => exact ih hsp hrest
      · rw [hsp] at h
        exact Option.noConfusion h

/-- When `splitFirst` finds an occurrence, the input decomposes around it and
the part before the match is free of the pattern (the match is leftmost). -/
theorem splitFirst_some_spec {pat : List Char} (hp : pat ≠ []) :
    ∀ (s pre post : List Char), splitFirst pat s = some (pre, post) →
      s = pre ++ pat ++ post ∧ ¬ pat <:+: pre := by
  intro s
  induction s with
  | nil =>
    intro pre post h
    unfold splitFirst at h
    rw [if_neg hp] at h
    exact Option.noConfusion h
  | cons c rest ih =>
    intro pre post h
    unfold splitFirst at h
    split at h
    · rename_i hpre
      injection h with h
      injection h with h1 h2
      rw [List.isPrefixOf_iff_prefix] at hpre
      obtain ⟨t, ht⟩ := hpre
      constructor
      · rw [← h1, ← h2, ← ht, List.nil_append, List.drop_left]
      · rw [← h1]
        intro hinf
        rw [List.infix_nil] at hinf
        exact hp hinf
    · rename_i hnp
      rcases hsp : splitFirst pat rest with _ | ⟨pre', post'⟩
      · rw [hsp] at h
        exact Option.noConfusion h
      · rw [hsp] at h
        injection h with h
        injection h with h1 h2
        obtain ⟨heq, hni⟩ := ih pre' post' hsp
        constructor
        · rw [← h1, ← h2, heq]
          simp
        · rw [← h1]
          intro hinf
          rw [List.infix_cons_iff] at hinf
          cases hinf with
          | inl hpfx =>
            apply hnp
            rw [List.isPrefixOf_iff_prefix]
            have hcr : (c :: pre') <+: (c :: rest) := by
              refine ⟨pat ++ post', ?_⟩
              rw [heq]
              simp
            exact hpfx.trans hcr
          | inr hinf' => exact hni hinf'

/-- Trimming yields an infix of the original list. -/
theorem trimChars_infix_self (l : List Char) : trimChars l <:+: l := by
  unfold trimChars
  have h1 : l.dropWhile Char.isWhitespace <:+ l := List.dropWhile_suffix _
  have h2 : (l.dropWhile Char.isWhitespace).reverse.dropWhile Char.isWhitespace <:+
      (l.dropWhile Char.isWhitespace).reverse := List.dropWhile_suffix _
  have h3 := List.reverse_prefix.mpr h2
  rw [List.reverse_reverse] at h3
  exact h3.isInfix.trans h1.isInfix

/-- C1 (amended): the visible content emitted by the stream consumer — the
`content` field computed by `separateThinkTags` over the accumulated raw
text, equivalently the final content of the chunk pipeline — never contains
the substring `<think>`: no complete `<think>…</think>` span and no unclosed
`<think>` interior ever appears.  (A partial marker prefix such as `<thi`
can appear; see the counterexample.) -/
theorem separateThinkTags_no_marker :
    (∀ raw : List Char,
      decide (openTag <:+: (separateThinkTags raw).1) = false) ∧
    (∀ chunks : List (List Char),
      decide (openTag <:+: (finalParse chunks).1) = false) := by
  have hmain : ∀ raw : List Char,
      decide (openTag <:+: (separateThinkTags raw).1) = false := by
    intro raw
    rw [decide_eq_false_iff_not]
    unfold separateThinkTags
    dsimp only
    rcases hsp : splitFirst openTag (replaceThinkBlocks raw).1 with _ | ⟨pre, rest⟩
    · dsimp only
      intro hinf
      exact not_infix_of_splitFirst_none (by decide) _ hsp
        (hinf.trans (trimChars_infix_self _))
    · dsimp only
      intro hinf
      exact (splitFirst_some_spec (by decide) _ _ _ hsp).2
        (hinf.trans (trimChars_infix_self pre))
  exact ⟨hmain, fun chunks => hmain _⟩

/-- C1 (counterexample): feeding the single chunk `"hello <thi"` — a raw
text ending in a partial marker prefix — produces visible content equal to
the raw text itself, which contains the partial marker prefix `<thi`,
contradicting the claim that no partial marker prefix ever appears in
emitted visible content. -/
theorem separateThinkTags_partial_marker_counterexample :
    (finalParse ["hello <thi".data]).1 = "hello <thi".data ∧
    decide ("<thi".data <:+: (finalParse ["hello <thi".data]).1) = true :=
  ⟨rfl, by decide⟩

/-- The block-extraction pass is fuel-insensitive above the input length:
each extracted block consumes at least 15 characters of the input. -/
theorem replaceThinkBlocksAux_fuel :
    ∀ (fuelA fuelB : Nat) (s : List Char), s.length ≤ fuelA → s.length ≤ fuelB →
      replaceThinkBlocksAux fuelA s = replaceThinkBlocksAux fuelB s := by
  intro fuelA
  induction fuelA with
  | zero =>
    intro fuelB s h1 _
    have hs : s = [] := List.eq_nil_of_length_eq_zero (Nat.le_zero.mp h1)
    subst hs
    cases fuelB with
    | zero => rfl
    | succ g => rfl
  | succ f ih =>
    intro fuelB s h1 h2
    cases fuelB with
    | zero =>
      have hs : s = [] := List.eq_nil_of_length_eq_zero (Nat.le_zero.mp h2)
      subst hs
      rfl
    | succ g =>
      rcases ho : splitFirst openTag s with _ | ⟨pre, rest⟩
      · simp only [replaceThinkBlocksAux, ho]
      · rcases hc : splitFirst closeTag rest with _ | ⟨interior, tail⟩
        · simp only [replaceThinkBlocksAux, ho, hc]
        · simp only [replaceThinkBlocksAux, ho, hc]
          have e1 := (splitFirst_some_spec (show openTag ≠ [] by decide)
            s pre rest ho).1
          have e2 := (splitFirst_some_spec (show closeTag ≠ [] by decide)
            rest interior tail hc).1
          have ho7 : openTag.length = 7 := rfl
          have hc8 : closeTag.length = 8 := rfl
          have l1 : s.length = pre.length + 7 + rest.length := by
            rw [e1]
            simp only [List.length_append, ho7]
          have l2 : rest.length = interior.length + 8 + tail.length := by
            rw [e2]
            simp only [List.length_append, hc8]
          have ht1 : tail.length ≤ f := by omega
          have ht2 : tail.length ≤ g := by omega
          rw [ih g tail ht1 ht2]

/-- C3: splitting a raw string containing a reasoning-marker span into two
chunks at any boundary and feeding both through the accumulate-then-reparse
pipeline yields the same final `{content, thinking}` pair as feeding the
whole string as one chunk: the state is the accumulated raw text, and
appending the two pieces recovers the whole. -/
theorem streamPipeline_chunk_split (s : List Char) (i : Nat)
    (h : hasThinkSpan s = true) :
    finalParse [s.take i, s.drop i] = finalParse [s] := by
  simp only [finalParse, runChunks, onChunkStep, List.nil_append]
  rw [List.take_append_drop]

/-- Witness for `streamPipeline_chunk_split`: the span `<think>plan</think>`
followed by `answer`, split in the middle of the closing marker. -/
theorem streamPipeline_chunk_split_witness :
    hasThinkSpan "<think>plan</think>answer".data = true ∧
    finalParse ["<think>plan</think>answer".data.take 14,
        "<think>plan</think>answer".data.drop 14] =
      finalParse ["<think>plan</think>answer".data] :=
  ⟨by decide, streamPipeline_chunk_split "<think>plan</think>answer".data 14
    (by decide)⟩

end MineAI
